import Mathlib

/-!
Verification of the delivery governor of the telegram-logger repository.

The definitions below are a shallow embedding of the JavaScript source:
`TelegramErrorLogger` (src/index.js), `TelegramClient` (src/utils/telegram.js)
and the surrounding glue. JavaScript `Map` objects are modelled as ordered
association lists, `Date.now()` as an explicit `Nat` argument, and the
behaviour of external collaborators (the `errorFilter` hook, the formatters,
the HTTP transport) as explicit oracle values. Exceptions are modelled with
`Except`; the falsiness quirks of JavaScript (`!lastSeen` treating a stored
`0` as absent, string-or-default treating `""` as missing) are embedded
faithfully.
-/

namespace TelegramLogger

/-- Lookup in a JS `Map` modelled as an association list (`Map.prototype.get`,
returning `undefined` as `none`). -/
def mapGet {α β : Type} [DecidableEq α] (m : List (α × β)) (k : α) : Option β :=
  match m with
  | [] => none
  | e :: rest => if e.1 = k then some e.2 else mapGet rest k

/-- `Map.prototype.set`: update the existing entry in place, else append. -/
def mapSet {α β : Type} [DecidableEq α] (m : List (α × β)) (k : α) (v : β) :
    List (α × β) :=
  match m with
  | [] => [(k, v)]
  | e :: rest => if e.1 = k then (k, v) :: rest else e :: mapSet rest k v

/-! ## Rate limiter (`TelegramErrorLogger.checkRateLimit`)

`this.errorCounts` is a `Map` from millisecond timestamps to counts. -/

/-- The rate limiter's state: the `errorCounts` map. -/
abbrev RLState := List (Nat × Nat)

/-- The lazy eviction loop of `checkRateLimit` (and of the periodic sweep):
deletes every entry whose timestamp is strictly below `now - W`. -/
def evictOld (now W : Nat) (m : RLState) : RLState :=
  m.filter (fun e => !decide (e.1 < now - W))

/-- The reduce over `this.errorCounts.values()` summing the per-timestamp
counts. -/
def sumCounts (m : RLState) : Nat :=
  (m.map (fun e => e.2)).sum

/-- `TelegramErrorLogger.checkRateLimit`, with the clock `now` and the
configuration values `W = rateLimitWindow`, `C = rateLimitMax` explicit.
Returns the admission decision together with the mutated `errorCounts`. -/
def checkRateLimit (now W C : Nat) (m : RLState) : Bool × RLState :=
  let cleaned := evictOld now W m
  let errorCount := sumCounts cleaned
  if C ≤ errorCount then (false, cleaned)
  else (true, mapSet cleaned now ((mapGet cleaned now).getD 0 + 1))

/-- Folding a list of call timestamps through `checkRateLimit`, collecting the
admission decisions. -/
def runCalls (W C : Nat) (ts : List Nat) (m : RLState) : List Bool × RLState :=
  match ts with
  | [] => ([], m)
  | t :: rest =>
    ((checkRateLimit t W C m).1 :: (runCalls W C rest (checkRateLimit t W C m).2).1,
     (runCalls W C rest (checkRateLimit t W C m).2).2)

/-! ## Deduplicator (`isDuplicate` / `recordError`)

`this.errorHashes` is a `Map` from identity hashes (strings) to the
millisecond timestamp of the last recording. -/

/-- The deduplicator's state: the `errorHashes` map. -/
abbrev DedupState := List (String × Nat)

/-- `TelegramErrorLogger.isDuplicate`. Note the JavaScript falsiness check
on the looked-up value: a stored timestamp of `0` is treated exactly like a
missing record. -/
def isDuplicate (hashes : DedupState) (errorHash : String) (now window : Nat) : Bool :=
  match mapGet hashes errorHash with
  | none => false
  | some lastSeen =>
    if lastSeen = 0 then false
    else decide (now - lastSeen < window)

/-- `TelegramErrorLogger.recordError`. -/
def recordError (hashes : DedupState) (errorHash : String) (now : Nat) : DedupState :=
  mapSet hashes errorHash now

/-- The deduplication step of `sendError`: consult `isDuplicate`; a duplicate
is suppressed without touching the record, otherwise `recordError` runs. -/
def dedupAdmit (hashes : DedupState) (errorHash : String) (now window : Nat) :
    Bool × DedupState :=
  if isDuplicate hashes errorHash now window then (false, hashes)
  else (true, recordError hashes errorHash now)

/-- The error attributes that `getErrorHash` reads. -/
structure ErrInfo where
  name : String
  message : String
deriving DecidableEq

/-- The parts of the request context that `getErrorHash` reads. -/
structure Ctx where
  route : Option String
  url : Option String
deriving DecidableEq

/-- JavaScript string-or-else on a possibly-absent string: `undefined` and
`""` are falsy, so either falls through to the default. -/
def orFalsy (o : Option String) (d : String) : String :=
  match o with
  | none => d
  | some s => if s = "" then d else s

/-- `TelegramErrorLogger.getErrorHash`: the colon-joined key built from the
error name, the error message, and the first truthy one of `context.route`,
`context.url`, `''`. -/
def getErrorHash (error : ErrInfo) (context : Ctx) : String :=
  error.name ++ ":" ++ error.message ++ ":" ++ orFalsy context.route (orFalsy context.url "")

/-! ## Transport and retry driver (`TelegramClient`) -/

/-- The behaviour of one underlying delivery attempt, as seen by the caller of
`TelegramClient.sendMessage`: the axios call resolves with data (`ok`), fails
so that the catch inside `sendMessage` returns `null` (`fail`), or the call
throws out of `sendMessage` itself (`thr`) — the case the retry loop's own
catch block guards against. -/
inductive TOutcome where
  | ok (r : Nat)
  | fail
  | thr (e : Nat)
deriving DecidableEq

/-- Whether an attempt outcome is a truthy success. -/
def TOutcome.isSuccess : TOutcome → Bool
  | .ok _ => true
  | _ => false

/-- `TelegramClient.sendMessage` viewed at its boundary: its internal
try/catch converts any axios failure or throw into a `null` result. -/
def sendMessageOnce (axiosResult : TOutcome) : Option Nat :=
  match axiosResult with
  | .ok r => some r
  | .fail => none
  | .thr _ => none

/-- Everything observable about one `sendMessageWithRetry` run: the returned
value (`null` is `none`), the backoff waits actually performed (milliseconds,
in order), the number of transport invocations, and the `lastError` variable
that the final `console.error` reports. -/
structure RetryResult where
  result : Option Nat
  waits : List Nat
  calls : Nat
  lastError : Option Nat
deriving DecidableEq

/-- The retry loop of `TelegramClient.sendMessageWithRetry`, with `remaining`
iterations left and `i` the current 0-based attempt index. A truthy result
returns immediately; a `null` result falls through to the next iteration with
no wait; a thrown error is caught, remembered in `lastError`, and — only when
another attempt remains (`i < retries - 1`, i.e. `remaining > 1`) — followed
by a wait of `2 ^ i * 1000` milliseconds. -/
def retryGo (transport : Nat → TOutcome) (remaining i : Nat)
    (lastError : Option Nat) (waits : List Nat) (calls : Nat) : RetryResult :=
  match remaining with
  | 0 => ⟨none, waits, calls, lastError⟩
  | r + 1 =>
    match transport i with
    | .ok res => ⟨some res, waits, calls + 1, lastError⟩
    | .fail => retryGo transport r (i + 1) lastError waits (calls + 1)
    | .thr e =>
      retryGo transport r (i + 1) (some e)
        (if r = 0 then waits else waits ++ [2 ^ i * 1000]) (calls + 1)

/-- `TelegramClient.sendMessageWithRetry(message, options, retries)`. -/
def sendMessageWithRetry (transport : Nat → TOutcome) (retries : Nat) : RetryResult :=
  retryGo transport retries 0 none [] 0

/-- The `lastError` variable accumulated over `remaining` attempts starting at
index `i`: only thrown errors update it. -/
def lastCauseFrom (transport : Nat → TOutcome) (i remaining : Nat)
    (acc : Option Nat) : Option Nat :=
  match remaining with
  | 0 => acc
  | r + 1 =>
    lastCauseFrom transport (i + 1) r
      (match transport i with
       | .thr e => some e
       | _ => acc)

/-- The cause of the last throwing attempt among the first `retries` attempts. -/
def lastCause (transport : Nat → TOutcome) (retries : Nat) : Option Nat :=
  lastCauseFrom transport 0 retries none

/-! ## Message truncation (`TelegramClient.truncateMessage`) -/

/-- `this.maxMessageLength = 4096` (Telegram's message length limit). -/
def maxMessageLength : Nat := 4096

/-- The truncation marker appended by `truncateMessage`. -/
def truncationNotice : List Char := "\n\n... (message truncated)".data

/-- `TelegramClient.truncateMessage`; strings are modelled as character
lists, the length/substring operations as `List.length`/`List.take`. -/
def truncateMessage (message : List Char) : List Char :=
  if message.length ≤ maxMessageLength then message
  else message.take (maxMessageLength - truncationNotice.length) ++ truncationNotice

/-! ## Governor (`TelegramErrorLogger`) -/

/-- The configuration fields of `this.config` that the delivery pipeline
reads (after the constructor's defaulting). -/
structure Config where
  rateLimitWindow : Nat
  rateLimitMax : Nat
  deduplicate : Bool
  deduplicateWindow : Nat
  retryAttempts : Nat
deriving DecidableEq

/-- The governor's mutable state: `this.errorCounts` and `this.errorHashes`. -/
structure LoggerState where
  errorCounts : RLState
  errorHashes : DedupState
deriving DecidableEq

/-- The behaviour of the configured `errorFilter` hook on this call:
not configured, returning a boolean, or throwing. -/
inductive FilterBeh where
  | absent
  | returns (b : Bool)
  | throws (e : Nat)
deriving DecidableEq

/-- The behaviour of the external formatter on this call: returning a string
or throwing. -/
inductive FmtBeh where
  | ok
  | throws (e : Nat)
deriving DecidableEq

/-- The filter consultation at the top of `sendError`: `ok true` means
proceed (no hook, or the hook returned a truthy value), `ok false` means
stop, `error` means the hook threw. -/
def filterStep (filter : FilterBeh) : Except Nat Bool :=
  match filter with
  | .absent => .ok true
  | .returns b => .ok b
  | .throws e => .error e

/-- Everything a public entry point's promise resolves to, together with the
observable side effects: the returned value (`null` is `none`), the state of
the two throttling maps afterwards, and how many transport invocations the
call performed. -/
structure SEOut where
  result : Option Nat
  st : LoggerState
  calls : Nat
deriving DecidableEq

/-- The tail of `sendError` after the throttling checks: delegate to the
formatter (which may throw) and then to `sendMessageWithRetry`. An `Except`
error carries the thrown value with the state and transport count at the
throw point. -/
def deliverStep (st : LoggerState) (fmt : FmtBeh) (transport : Nat → TOutcome)
    (retries : Nat) : Except (Nat × LoggerState × Nat) SEOut :=
  match fmt with
  | .throws e => .error (e, st, 0)
  | .ok =>
    let r := sendMessageWithRetry transport retries
    .ok ⟨r.result, st, r.calls⟩

/-- The body of `TelegramErrorLogger.sendError` (inside its try block):
filter → `checkRateLimit` → (when `deduplicate`) `isDuplicate`/`recordError`
→ format → `sendMessageWithRetry`. An `Except` error is an exception escaping
the body into the catch clause. -/
def sendErrorBody (cfg : Config) (st : LoggerState) (filter : FilterBeh)
    (error : ErrInfo) (context : Ctx) (fmt : FmtBeh)
    (transport : Nat → TOutcome) (now : Nat) :
    Except (Nat × LoggerState × Nat) SEOut :=
  match filterStep filter with
  | .error e => .error (e, st, 0)
  | .ok pass =>
    if !pass then .ok ⟨none, st, 0⟩
    else
      let rl := checkRateLimit now cfg.rateLimitWindow cfg.rateLimitMax st.errorCounts
      let st1 : LoggerState := ⟨rl.2, st.errorHashes⟩
      if !rl.1 then .ok ⟨none, st1, 0⟩
      else
        if cfg.deduplicate then
          let errorHash := getErrorHash error context
          if isDuplicate st1.errorHashes errorHash now cfg.deduplicateWindow then
            .ok ⟨none, st1, 0⟩
          else
            deliverStep ⟨st1.errorCounts, recordError st1.errorHashes errorHash now⟩
              fmt transport cfg.retryAttempts
        else
          deliverStep st1 fmt transport cfg.retryAttempts

/-- `TelegramErrorLogger.sendError` as observed by its caller: the body runs
under a try/catch whose catch clause returns `null`, so an `Except.error`
value out of this function would be a rejected promise. -/
def sendErrorJS (cfg : Config) (st : LoggerState) (filter : FilterBeh)
    (error : ErrInfo) (context : Ctx) (fmt : FmtBeh)
    (transport : Nat → TOutcome) (now : Nat) : Except Nat SEOut :=
  match sendErrorBody cfg st filter error context fmt transport now with
  | .ok o => .ok o
  | .error (_, s, c) => .ok ⟨none, s, c⟩

/-- `TelegramErrorLogger.sendCustomMessage`: format (may throw, caught by the
catch clause of the method itself) then `sendMessageWithRetry`; the
throttling maps are never consulted or written. -/
def sendCustomMessageJS (cfg : Config) (st : LoggerState) (fmt : FmtBeh)
    (transport : Nat → TOutcome) : Except Nat SEOut :=
  match fmt with
  | .throws _ => .ok ⟨none, st, 0⟩
  | .ok =>
    let r := sendMessageWithRetry transport cfg.retryAttempts
    .ok ⟨r.result, st, r.calls⟩

/-- `TelegramErrorLogger.sendRawMessage`: one `TelegramClient.sendMessage`
call (which itself never throws), wrapped in a try/catch returning `null`. -/
def sendRawMessageJS (st : LoggerState) (axiosResult : TOutcome) : Except Nat SEOut :=
  .ok ⟨sendMessageOnce axiosResult, st, 1⟩

/-- The constructor's validation: a falsy `botToken` or `chatId` (modelled as
the empty string) makes the constructor throw synchronously. -/
def validateConstructor (botToken chatId : String) : Except String Unit :=
  if botToken = "" then .error "Telegram bot token is required"
  else if chatId = "" then .error "Telegram chat ID is required"
  else .ok ()

/-- `n` consecutive `sendCustomMessage` calls, threading the governor state
from call to call and collecting each call's outcome. -/
def runCustomMessages (cfg : Config) (st : LoggerState)
    (transport : Nat → TOutcome) : Nat → List SEOut
  | 0 => []
  | n + 1 =>
    match sendCustomMessageJS cfg st .ok transport with
    | .ok o => o :: runCustomMessages cfg o.st transport n
    | .error _ => []

/-! ## Concrete fixtures used by counterexamples and witnesses -/

/-- A transport whose first two attempts fail with a `null` result and whose
third succeeds. -/
def tFailFailOk : Nat → TOutcome := fun i => if i < 2 then .fail else .ok 7

/-- A transport whose first two attempts throw and whose third succeeds. -/
def tThrThrOk : Nat → TOutcome := fun i => if i < 2 then .thr i else .ok 7

/-- A transport that throws on every attempt. -/
def tAllThr : Nat → TOutcome := fun i => .thr i

/-- A transport that fails (returns `null`) on every attempt. -/
def tAllFail : Nat → TOutcome := fun _ => .fail

/-- A transport that succeeds on every attempt. -/
def tAllOk : Nat → TOutcome := fun _ => .ok 5

/-- A governor configuration with deduplication enabled and one retry. -/
def cfgDedup : Config := ⟨60000, 10, true, 300000, 1⟩

/-- A governor configuration with `rateLimitMax = 1`. -/
def cfgTight : Config := ⟨60000, 1, false, 300000, 3⟩

/-! ## Helper lemmas -/

theorem mapGet_mapSet_self {α β : Type} [DecidableEq α]
    (m : List (α × β)) (k : α) (v : β) : mapGet (mapSet m k v) k = some v := by
  induction m with
  | nil => simp [mapGet, mapSet]
  | cons e rest ih =>
    by_cases h : e.1 = k
    · simp [mapGet, mapSet, h]
    · simp [mapGet, mapSet, h, ih]

theorem mapSet_mem {α β : Type} [DecidableEq α]
    (m : List (α × β)) (k : α) (v : β) :
    ∀ e ∈ mapSet m k v, e.1 = k ∨ e ∈ m := by
  induction m with
  | nil => simp [mapSet]
  | cons hd rest ih =>
    intro e he
    by_cases h : hd.1 = k
    · simp only [mapSet, if_pos h, List.mem_cons] at he
      rcases he with he | he
      · exact Or.inl (by rw [he])
      · exact Or.inr (List.mem_cons_of_mem _ he)
    · simp only [mapSet, if_neg h, List.mem_cons] at he
      rcases he with he | he
      · exact Or.inr (by rw [he]; exact List.mem_cons_self _ _)
      · rcases ih e he with h1 | h1
        · exact Or.inl h1
        · exact Or.inr (List.mem_cons_of_mem _ h1)

theorem evictOld_mem_iff (now W : Nat) (m : RLState) (e : Nat × Nat) :
    e ∈ evictOld now W m ↔ e ∈ m ∧ now - e.1 ≤ W := by
  simp only [evictOld, List.mem_filter, Bool.not_eq_true', decide_eq_false_iff_not,
    Nat.not_lt]
  constructor
  · rintro ⟨h1, h2⟩
    exact ⟨h1, by omega⟩
  · rintro ⟨h1, h2⟩
    exact ⟨h1, by omega⟩

theorem evictOld_eq_self (now W : Nat) (m : RLState)
    (h : ∀ e ∈ m, now - e.1 ≤ W) : evictOld now W m = m := by
  apply List.filter_eq_self.2
  intro e he
  simp only [Bool.not_eq_true', decide_eq_false_iff_not, Nat.not_lt]
  have := h e he
  omega

theorem sumCounts_mapSet_incr (m : RLState) (k : Nat) :
    sumCounts (mapSet m k ((mapGet m k).getD 0 + 1)) = sumCounts m + 1 := by
  induction m with
  | nil => simp [mapSet, mapGet, sumCounts]
  | cons e rest ih =>
    by_cases h : e.1 = k
    · simp only [mapSet, mapGet, if_pos h, sumCounts, List.map_cons, List.sum_cons,
        Option.getD_some]
      omega
    · simp only [mapSet, mapGet, if_neg h, sumCounts, List.map_cons, List.sum_cons] at ih ⊢
      omega

theorem checkRateLimit_reject (now W C : Nat) (m : RLState)
    (h : C ≤ sumCounts (evictOld now W m)) :
    checkRateLimit now W C m = (false, evictOld now W m) := by
  unfold checkRateLimit
  simp only [if_pos h]

theorem checkRateLimit_accept (now W C : Nat) (m : RLState)
    (h : sumCounts (evictOld now W m) < C) :
    checkRateLimit now W C m =
      (true, mapSet (evictOld now W m) now
        ((mapGet (evictOld now W m) now).getD 0 + 1)) := by
  unfold checkRateLimit
  simp only [if_neg (by omega : ¬ C ≤ sumCounts (evictOld now W m))]

theorem checkRateLimit_fst_true_iff (now W C : Nat) (m : RLState) :
    (checkRateLimit now W C m).1 = true ↔ sumCounts (evictOld now W m) < C := by
  by_cases h : C ≤ sumCounts (evictOld now W m)
  · rw [checkRateLimit_reject now W C m h]
    exact ⟨fun hc => absurd hc (by simp), fun hc => by omega⟩
  · rw [checkRateLimit_accept now W C m (by omega)]
    exact ⟨fun _ => by omega, fun _ => rfl⟩

theorem runCalls_inv (W C t0 : Nat) :
    ∀ (ts : List Nat) (m : RLState),
      (∀ t ∈ ts, t0 ≤ t ∧ t ≤ t0 + W) →
      (∀ e ∈ m, t0 ≤ e.1 ∧ e.1 ≤ t0 + W) →
      sumCounts m + ts.length ≤ C →
      (runCalls W C ts m).1 = List.replicate ts.length true ∧
      (∀ e ∈ (runCalls W C ts m).2, t0 ≤ e.1 ∧ e.1 ≤ t0 + W) ∧
      sumCounts (runCalls W C ts m).2 = sumCounts m + ts.length := by
  intro ts
  induction ts with
  | nil =>
    intro m _ hm _
    exact ⟨rfl, hm, rfl⟩
  | cons t rest ih =>
    intro m hts hm hsum
    have htb : t0 ≤ t ∧ t ≤ t0 + W := hts t (List.mem_cons_self _ _)
    have hev : evictOld t W m = m := by
      apply evictOld_eq_self
      intro e he
      have := hm e he
      omega
    have hcnt : sumCounts (evictOld t W m) < C := by
      rw [hev]
      simp only [List.length_cons] at hsum
      omega
    have hstep := checkRateLimit_accept t W C m hcnt
    rw [hev] at hstep
    have hm' : ∀ e ∈ (checkRateLimit t W C m).2, t0 ≤ e.1 ∧ e.1 ≤ t0 + W := by
      rw [hstep]
      intro e he
      rcases mapSet_mem m t _ e he with h1 | h1
      · rw [h1]; exact htb
      · exact hm e h1
    have hsum' : sumCounts (checkRateLimit t W C m).2 = sumCounts m + 1 := by
      rw [hstep]
      exact sumCounts_mapSet_incr m t
    have hrest := ih (checkRateLimit t W C m).2
      (fun t' ht' => hts t' (List.mem_cons_of_mem _ ht')) hm'
      (by simp only [List.length_cons] at hsum; omega)
    refine ⟨?_, ?_, ?_⟩
    · simp only [runCalls, List.length_cons, List.replicate_succ, List.cons.injEq]
      refine ⟨by rw [hstep], hrest.1⟩
    · intro e he
      simp only [runCalls] at he
      exact hrest.2.1 e he
    · simp only [runCalls, List.length_cons]
      rw [hrest.2.2, hsum']
      omega

theorem retryGo_calls_le (transport : Nat → TOutcome) :
    ∀ remaining i lastError waits calls,
      calls ≤ (retryGo transport remaining i lastError waits calls).calls := by
  intro remaining
  induction remaining with
  | zero => intro i le w c; simp [retryGo]
  | succ r ih =>
    intro i le w c
    unfold retryGo
    match h : transport i with
    | .ok res => simp
    | .fail => exact Nat.le_trans (Nat.le_succ c) (ih (i + 1) le w (c + 1))
    | .thr e => exact Nat.le_trans (Nat.le_succ c) (ih (i + 1) (some e) _ (c + 1))

theorem sendMessageWithRetry_calls_pos (transport : Nat → TOutcome) (retries : Nat)
    (h : 1 ≤ retries) : 1 ≤ (sendMessageWithRetry transport retries).calls := by
  obtain ⟨r, rfl⟩ : ∃ r, retries = r + 1 := ⟨retries - 1, by omega⟩
  unfold sendMessageWithRetry retryGo
  match htr : transport 0 with
  | .ok res => simp
  | .fail => exact retryGo_calls_le transport r 1 none [] 1
  | .thr e => exact retryGo_calls_le transport r 1 (some e) _ 1

theorem retryGo_allFail (transport : Nat → TOutcome) :
    ∀ remaining i lastError waits calls,
      (∀ j, j < remaining → (transport (i + j)).isSuccess = false) →
      (retryGo transport remaining i lastError waits calls).result = none ∧
      (retryGo transport remaining i lastError waits calls).calls = calls + remaining ∧
      (retryGo transport remaining i lastError waits calls).lastError =
        lastCauseFrom transport i remaining lastError := by
  intro remaining
  induction remaining with
  | zero =>
    intro i le w c _
    exact ⟨rfl, rfl, rfl⟩
  | succ r ih =>
    intro i le w c hfail
    have h0 : (transport i).isSuccess = false := by
      have := hfail 0 (Nat.succ_pos r)
      simpa using this
    unfold retryGo lastCauseFrom
    match htr : transport i with
    | .ok res => rw [htr] at h0; simp [TOutcome.isSuccess] at h0
    | .fail =>
      have := ih (i + 1) le w (c + 1)
        (fun j hj => by have := hfail (j + 1) (by omega); simpa [Nat.add_assoc, Nat.add_comm 1 j] using this)
      exact ⟨this.1, by rw [this.2.1]; omega, this.2.2⟩
    | .thr e =>
      have := ih (i + 1) (some e) (if r = 0 then w else w ++ [2 ^ i * 1000]) (c + 1)
        (fun j hj => by have := hfail (j + 1) (by omega); simpa [Nat.add_assoc, Nat.add_comm 1 j] using this)
      exact ⟨this.1, by rw [this.2.1]; omega, this.2.2⟩

theorem range_pow_shift (i k : Nat) :
    (List.range (k + 1)).map (fun j => 2 ^ (i + j) * 1000) =
      2 ^ i * 1000 :: (List.range k).map (fun j => 2 ^ (i + 1 + j) * 1000) := by
  rw [List.range_succ_eq_map, List.map_cons, List.map_map]
  refine List.cons_eq_cons.2 ⟨by norm_num, ?_⟩
  apply List.map_congr_left
  intro j _
  simp only [Function.comp_apply]
  have h : i + Nat.succ j = i + 1 + j := by omega
  rw [h]

theorem retryGo_thr_run (transport : Nat → TOutcome) (ce : Nat → Nat) (res : Nat) :
    ∀ (k remaining i : Nat) (lastError : Option Nat) (waits : List Nat) (calls : Nat),
      k < remaining →
      (∀ j, j < k → transport (i + j) = .thr (ce (i + j))) →
      transport (i + k) = .ok res →
      (retryGo transport remaining i lastError waits calls).result = some res ∧
      (retryGo transport remaining i lastError waits calls).calls = calls + k + 1 ∧
      (retryGo transport remaining i lastError waits calls).waits =
        waits ++ (List.range k).map (fun j => 2 ^ (i + j) * 1000) := by
  intro k
  induction k with
  | zero =>
    intro remaining i le w c hk hthr hok
    obtain ⟨r, rfl⟩ : ∃ r, remaining = r + 1 := ⟨remaining - 1, by omega⟩
    rw [Nat.add_zero] at hok
    unfold retryGo
    rw [hok]
    simp
  | succ k ih =>
    intro remaining i le w c hk hthr hok
    obtain ⟨r, rfl⟩ : ∃ r, remaining = r + 1 := ⟨remaining - 1, by omega⟩
    have hr : k < r := by omega
    have hrpos : r ≠ 0 := by omega
    have h0 : transport i = .thr (ce i) := by
      have := hthr 0 (Nat.succ_pos k)
      simpa using this
    unfold retryGo
    rw [h0]
    simp only [if_neg hrpos]
    have hrec := ih r (i + 1) (some (ce i)) (w ++ [2 ^ i * 1000]) (c + 1) hr
      (fun j hj => by
        have := hthr (j + 1) (by omega)
        simpa [Nat.add_assoc, Nat.add_comm 1 j] using this)
      (by
        have : i + (k + 1) = i + 1 + k := by omega
        rw [← this]; exact hok)
    refine ⟨hrec.1, by rw [hrec.2.1]; omega, ?_⟩
    rw [hrec.2.2, range_pow_shift, List.append_assoc, List.singleton_append]

theorem retryGo_fail_run (transport : Nat → TOutcome) (res : Nat) :
    ∀ (k remaining i : Nat) (lastError : Option Nat) (waits : List Nat) (calls : Nat),
      k < remaining →
      (∀ j, j < k → transport (i + j) = .fail) →
      transport (i + k) = .ok res →
      (retryGo transport remaining i lastError waits calls).result = some res ∧
      (retryGo transport remaining i lastError waits calls).calls = calls + k + 1 ∧
      (retryGo transport remaining i lastError waits calls).waits = waits := by
  intro k
  induction k with
  | zero =>
    intro remaining i le w c hk hfl hok
    obtain ⟨r, rfl⟩ : ∃ r, remaining = r + 1 := ⟨remaining - 1, by omega⟩
    rw [Nat.add_zero] at hok
    unfold retryGo
    rw [hok]
    simp
  | succ k ih =>
    intro remaining i le w c hk hfl hok
    obtain ⟨r, rfl⟩ : ∃ r, remaining = r + 1 := ⟨remaining - 1, by omega⟩
    have hr : k < r := by omega
    have h0 : transport i = .fail := by
      have := hfl 0 (Nat.succ_pos k)
      simpa using this
    unfold retryGo
    rw [h0]
    have hrec := ih r (i + 1) le w (c + 1) hr
      (fun j hj => by
        have := hfl (j + 1) (by omega)
        simpa [Nat.add_assoc, Nat.add_comm 1 j] using this)
      (by
        have : i + (k + 1) = i + 1 + k := by omega
        rw [← this]; exact hok)
    exact ⟨hrec.1, by rw [hrec.2.1]; omega, hrec.2.2⟩

/-! ## Claim C2: exponential backoff between retry attempts -/

/-- C2 (counterexample): the claim says that with `maxAttempts = 3` and a
transport that fails twice then succeeds, the retry driver waits 1 second and
2 seconds between the attempts. For the transport `tFailFailOk`, whose first
two attempts fail the way the repository's own transport fails (returning
`null`, since `sendMessage` catches every error), the driver does invoke the
transport 3 times and return the success, but performs no wait at all: the
backoff sleep sits in the `catch` branch and runs only for thrown errors. -/
theorem sendMessageWithRetry_noBackoff_cex :
    (sendMessageWithRetry tFailFailOk 3).result = some 7 ∧
    (sendMessageWithRetry tFailFailOk 3).calls = 3 ∧
    (sendMessageWithRetry tFailFailOk 3).waits = [] ∧
    ([] : List Nat) ≠ [1000, 2000] := by decide

/-- C2 (amended): between attempt `i` and `i + 1` the retry driver waits
`2 ^ i` seconds only when attempt `i` threw an exception and another attempt
remains; an attempt that fails by returning `null` is followed immediately by
the next attempt with no wait. With `maxAttempts = 3` and a transport that
throws twice then succeeds, the transport is invoked exactly 3 times with
waits of 1 s and 2 s between the attempts and the success result is
returned; with a transport that returns `null` twice then succeeds, it is
invoked exactly 3 times with no waits and the success result is returned. -/
theorem sendMessageWithRetry_backoff_spec (transport : Nat → TOutcome)
    (ce : Nat → Nat) (k retries res : Nat) (hk : k < retries) :
    ((∀ j, j < k → transport j = .thr (ce j)) → transport k = .ok res →
      (sendMessageWithRetry transport retries).result = some res ∧
      (sendMessageWithRetry transport retries).calls = k + 1 ∧
      (sendMessageWithRetry transport retries).waits =
        (List.range k).map (fun j => 2 ^ j * 1000)) ∧
    ((∀ j, j < k → transport j = .fail) → transport k = .ok res →
      (sendMessageWithRetry transport retries).result = some res ∧
      (sendMessageWithRetry transport retries).calls = k + 1 ∧
      (sendMessageWithRetry transport retries).waits = []) := by
  unfold sendMessageWithRetry
  constructor
  · intro hthr hok
    have h := retryGo_thr_run transport ce res k retries 0 none [] 0 hk
      (fun j hj => by simpa using hthr j hj) (by simpa using hok)
    refine ⟨h.1, by rw [h.2.1]; omega, ?_⟩
    rw [h.2.2, List.nil_append]
    apply List.map_congr_left
    intro j _
    norm_num
  · intro hfl hok
    have h := retryGo_fail_run transport res k retries 0 none [] 0 hk
      (fun j hj => by simpa using hfl j hj) (by simpa using hok)
    exact ⟨h.1, by rw [h.2.1]; omega, h.2.2⟩

/-- Witness for `sendMessageWithRetry_backoff_spec` at concrete inputs:
a throw-throw-succeed transport with 3 attempts yields waits of 1000 ms and
2000 ms; a null-null-succeed transport yields no waits. -/
theorem sendMessageWithRetry_backoff_spec_witness :
    (sendMessageWithRetry tThrThrOk 3).result = some 7 ∧
    (sendMessageWithRetry tThrThrOk 3).calls = 3 ∧
    (sendMessageWithRetry tThrThrOk 3).waits = [1000, 2000] ∧
    (sendMessageWithRetry tFailFailOk 3).waits = [] := by
  have a := (sendMessageWithRetry_backoff_spec tThrThrOk id 2 3 7 (by decide)).1
    (by decide) (by decide)
  have b := (sendMessageWithRetry_backoff_spec tFailFailOk id 2 3 7 (by decide)).2
    (by decide) (by decide)
  exact ⟨a.1, a.2.1, by rw [a.2.2]; decide, b.2.2⟩

/-! ## Claim C5: a transport that always fails -/

/-- C5: for every retry-driven send against a transport that always fails
(whether by returning `null` or by throwing), the retry driver invokes the
transport exactly `maxAttempts` times, returns the failure value `null`
(`none`) — reporting the last observed thrown cause via `lastError` — and,
being a total function into `RetryResult`, never raises an exception to its
caller. -/
theorem sendMessageWithRetry_allFail_spec (transport : Nat → TOutcome)
    (retries : Nat) (h : ∀ i, i < retries → (transport i).isSuccess = false) :
    (sendMessageWithRetry transport retries).result = none ∧
    (sendMessageWithRetry transport retries).calls = retries ∧
    (sendMessageWithRetry transport retries).lastError = lastCause transport retries := by
  unfold sendMessageWithRetry lastCause
  have h2 := retryGo_allFail transport retries 0 none [] 0
    (fun j hj => by simpa using h j hj)
  exact ⟨h2.1, by rw [h2.2.1]; omega, h2.2.2⟩

/-- Witness for `sendMessageWithRetry_allFail_spec`: an always-throwing
transport with 2 attempts is invoked twice, the result is `none`, and the
reported cause is that of the last attempt. -/
theorem sendMessageWithRetry_allFail_spec_witness :
    (sendMessageWithRetry tAllThr 2).result = none ∧
    (sendMessageWithRetry tAllThr 2).calls = 2 ∧
    (sendMessageWithRetry tAllThr 2).lastError = some 1 := by
  have h := sendMessageWithRetry_allFail_spec tAllThr 2 (by decide)
  exact ⟨h.1, h.2.1, by rw [h.2.2]; decide⟩

/-! ## Claim C3: a throwing errorFilter -/

/-- C3 (code evaluation): the claim — backed by the spec's explicit policy —
says a throwing `errorFilter` must be treated as filter-pass so that
processing continues toward delivery. The code instead lets the exception
escape the filter consultation into the outer catch of `sendError`, which
returns `null`: for every configuration, state and transport, a throwing
filter yields result `none`, an unchanged state, and zero transport
invocations — the event is suppressed, not delivered. -/
theorem sendError_filterThrows_suppresses (cfg : Config) (st : LoggerState)
    (e : Nat) (error : ErrInfo) (context : Ctx) (fmt : FmtBeh)
    (transport : Nat → TOutcome) (now : Nat) :
    sendErrorJS cfg st (.throws e) error context fmt transport now =
      .ok ⟨none, st, 0⟩ := rfl

/-! ## Claim C6: a filter veto is free of side effects -/

/-- C6: if the configured `errorFilter` returns `false`, `sendError` resolves
to `null` with the rate-limiter and deduplicator state untouched and zero
transport invocations; consequently a subsequent call from the resulting
state behaves exactly as it would from the original state (so a call that
would have been admitted under the same limits is still admitted). -/
theorem sendError_filterFalse_noEffect (cfg : Config) (st : LoggerState)
    (error : ErrInfo) (context : Ctx) (fmt : FmtBeh)
    (transport : Nat → TOutcome) (now : Nat) :
    sendErrorJS cfg st (.returns false) error context fmt transport now =
      .ok ⟨none, st, 0⟩ ∧
    (∀ (o : SEOut) (filter2 : FilterBeh) (error2 : ErrInfo) (context2 : Ctx)
        (fmt2 : FmtBeh) (transport2 : Nat → TOutcome) (now2 : Nat),
      sendErrorJS cfg st (.returns false) error context fmt transport now = .ok o →
      sendErrorJS cfg o.st filter2 error2 context2 fmt2 transport2 now2 =
        sendErrorJS cfg st filter2 error2 context2 fmt2 transport2 now2) := by
  refine ⟨rfl, ?_⟩
  intro o filter2 error2 context2 fmt2 transport2 now2 ho
  have : o = ⟨none, st, 0⟩ := by
    have h0 : sendErrorJS cfg st (.returns false) error context fmt transport now =
        .ok ⟨none, st, 0⟩ := rfl
    rw [h0] at ho
    exact (Except.ok.injEq _ _ ▸ congrArg id ho) ▸ (Except.ok.inj ho).symm
  rw [this]

/-- Witness for `sendError_filterFalse_noEffect` at a concrete input: after a
vetoed call on the empty state, a subsequent call observes the very outcome
it would observe on the empty state. -/
theorem sendError_filterFalse_noEffect_witness :
    sendErrorJS cfgDedup ⟨[], []⟩ (.returns false) ⟨"E", "m"⟩ ⟨none, none⟩ .ok
        tAllFail 5 = .ok ⟨none, ⟨[], []⟩, 0⟩ ∧
    sendErrorJS cfgDedup (⟨none, ⟨[], []⟩, 0⟩ : SEOut).st .absent ⟨"E", "m"⟩
        ⟨none, none⟩ .ok tAllFail 6 =
      sendErrorJS cfgDedup ⟨[], []⟩ .absent ⟨"E", "m"⟩ ⟨none, none⟩ .ok tAllFail 6 := by
  have h := sendError_filterFalse_noEffect cfgDedup ⟨[], []⟩ ⟨"E", "m"⟩ ⟨none, none⟩
    .ok tAllFail 5
  exact ⟨h.1, h.2 ⟨none, ⟨[], []⟩, 0⟩ .absent ⟨"E", "m"⟩ ⟨none, none⟩ .ok tAllFail 6 h.1⟩

/-! ## Claim C7: public entry points resolve, only the constructor throws -/

/-- C7: each public entry point (`sendError`, `sendCustomMessage`,
`sendRawMessage`) resolves to a value — `Except.ok`, never `Except.error` —
for every input, every hook behaviour (including a throwing filter or
formatter) and every transport outcome; and the constructor's validation
throws exactly when `botToken` or `chatId` is missing (falsy). -/
theorem publicEntryPoints_never_reject :
    (∀ botToken chatId, (∃ msg, validateConstructor botToken chatId = .error msg) ↔
      (botToken = "" ∨ chatId = "")) ∧
    (∀ (cfg : Config) (st : LoggerState) (filter : FilterBeh) (error : ErrInfo)
        (context : Ctx) (fmt : FmtBeh) (transport : Nat → TOutcome) (now : Nat),
      ∃ o, sendErrorJS cfg st filter error context fmt transport now = .ok o) ∧
    (∀ (cfg : Config) (st : LoggerState) (fmt : FmtBeh) (transport : Nat → TOutcome),
      ∃ o, sendCustomMessageJS cfg st fmt transport = .ok o) ∧
    (∀ (st : LoggerState) (axiosResult : TOutcome),
      ∃ o, sendRawMessageJS st axiosResult = .ok o) := by
  refine ⟨?_, ?_, ?_, ?_⟩
  · intro bt cid
    by_cases h1 : bt = ""
    · simp [validateConstructor, h1]
    · by_cases h2 : cid = ""
      · simp [validateConstructor, h1, h2]
      · simp [validateConstructor, h1, h2]
  · intro cfg st filter error context fmt transport now
    unfold sendErrorJS
    cases h : sendErrorBody cfg st filter error context fmt transport now with
    | ok o => exact ⟨o, rfl⟩
    | error e =>
      obtain ⟨e1, s, c⟩ := e
      exact ⟨⟨none, s, c⟩, rfl⟩
  · intro cfg st fmt transport
    cases fmt with
    | ok => exact ⟨_, rfl⟩
    | throws e => exact ⟨_, rfl⟩
  · intro st ax
    exact ⟨_, rfl⟩

/-- Witness for `publicEntryPoints_never_reject`: a missing bot token throws,
and a concrete `sendError` call resolves. -/
theorem publicEntryPoints_never_reject_witness :
    (∃ msg, validateConstructor "" "chat" = .error msg) ∧
    (∃ o, sendErrorJS cfgDedup ⟨[], []⟩ (.throws 3) ⟨"E", "m"⟩ ⟨none, none⟩ .ok
      tAllFail 0 = .ok o) := by
  exact ⟨(publicEntryPoints_never_reject.1 "" "chat").2 (Or.inl rfl),
    publicEntryPoints_never_reject.2.1 cfgDedup ⟨[], []⟩ (.throws 3) ⟨"E", "m"⟩
      ⟨none, none⟩ .ok tAllFail 0⟩

/-! ## Claim C8: message truncation -/

/-- C8: a message whose length is at most 4096 passes through
`truncateMessage` unchanged; a longer message is mapped to a prefix of itself
(`List.take`) followed by the truncation marker, and the result's length does
not exceed 4096. -/
theorem truncateMessage_spec (message : List Char) :
    (message.length ≤ maxMessageLength → truncateMessage message = message) ∧
    (maxMessageLength < message.length →
      truncateMessage message =
        message.take (maxMessageLength - truncationNotice.length) ++ truncationNotice ∧
      (truncateMessage message).length ≤ maxMessageLength) := by
  have hm : maxMessageLength = 4096 := rfl
  have hn : truncationNotice.length = 25 := rfl
  constructor
  · intro h
    unfold truncateMessage
    rw [if_pos h]
  · intro h
    refine ⟨?_, ?_⟩
    · unfold truncateMessage
      rw [if_neg (by omega)]
    · unfold truncateMessage
      rw [if_neg (by omega), List.length_append, List.length_take, hn, hm]
      rw [hm] at h
      omega

/-- Witness for `truncateMessage_spec`: a 1-character message is unchanged; a
4097-character message is truncated to a 4071-character prefix plus the
25-character marker, total 4096. -/
theorem truncateMessage_spec_witness :
    truncateMessage ['a'] = ['a'] ∧
    truncateMessage (List.replicate 4097 'a') =
      (List.replicate 4097 'a').take (maxMessageLength - truncationNotice.length) ++
        truncationNotice ∧
    (truncateMessage (List.replicate 4097 'a')).length ≤ maxMessageLength := by
  have a := (truncateMessage_spec ['a']).1 (by decide)
  have b := (truncateMessage_spec (List.replicate 4097 'a')).2
    (by rw [List.length_replicate]; norm_num [maxMessageLength])
  exact ⟨a, b.1, b.2⟩

/-! ## Claim C4: deduplication of a twice-submitted identity -/

/-- C4 (counterexample): the claim says a second submission of the same
identity strictly within `deduplicateWindow` of the recorded timestamp
returns `false`. With the first submission recorded at clock value `0`, a
second submission at clock value `1` (well within the 300000 ms window) is
admitted: the falsiness check in `isDuplicate` treats the stored timestamp
`0` as a missing record. -/
theorem dedupAdmit_zero_timestamp_cex :
    (dedupAdmit ((dedupAdmit [] "h" 0 300000).2) "h" 1 300000).1 = true ∧
    (1 : Nat) - 0 < 300000 := by decide

/-- C4 (amended): for every identity submitted twice with deduplication
enabled, provided the first submission's recorded timestamp is nonzero (a
record holding `0` is treated as absent by the falsiness check): the first
submission is admitted and recorded; a second submission strictly within
`deduplicateWindow` of the record returns `false` with the record untouched;
a second submission with a gap of at least `deduplicateWindow` returns `true`
and overwrites the record with the current timestamp. -/
theorem dedupAdmit_twice_spec (st0 : DedupState) (idt : String)
    (t1 t2 window : Nat) (hfresh : mapGet st0 idt = none) (hpos : 0 < t1)
    (hle : t1 ≤ t2) :
    (dedupAdmit st0 idt t1 window).1 = true ∧
    mapGet (dedupAdmit st0 idt t1 window).2 idt = some t1 ∧
    (t2 - t1 < window →
      dedupAdmit (dedupAdmit st0 idt t1 window).2 idt t2 window =
        (false, (dedupAdmit st0 idt t1 window).2)) ∧
    (window ≤ t2 - t1 →
      (dedupAdmit (dedupAdmit st0 idt t1 window).2 idt t2 window).1 = true ∧
      mapGet (dedupAdmit (dedupAdmit st0 idt t1 window).2 idt t2 window).2 idt =
        some t2) := by
  have hdup1 : isDuplicate st0 idt t1 window = false := by
    unfold isDuplicate
    rw [hfresh]
  have h1 : dedupAdmit st0 idt t1 window = (true, recordError st0 idt t1) := by
    unfold dedupAdmit
    rw [hdup1]
    simp
  have hget : mapGet (recordError st0 idt t1) idt = some t1 :=
    mapGet_mapSet_self st0 idt t1
  refine ⟨by rw [h1], by rw [h1]; exact hget, ?_, ?_⟩
  · intro hwin
    have hdup2 : isDuplicate (recordError st0 idt t1) idt t2 window = true := by
      unfold isDuplicate
      rw [hget]
      show (if t1 = 0 then false else decide (t2 - t1 < window)) = true
      rw [if_neg (by omega)]
      simpa using hwin
    rw [h1]
    unfold dedupAdmit
    rw [hdup2]
    simp
  · intro hwin
    have hdup2 : isDuplicate (recordError st0 idt t1) idt t2 window = false := by
      unfold isDuplicate
      rw [hget]
      show (if t1 = 0 then false else decide (t2 - t1 < window)) = false
      rw [if_neg (by omega)]
      simp only [decide_eq_false_iff_not]
      omega
    rw [h1]
    constructor
    · unfold dedupAdmit
      rw [hdup2]
      simp
    · unfold dedupAdmit
      rw [hdup2]
      simp only [Bool.false_eq_true, if_false]
      exact mapGet_mapSet_self (recordError st0 idt t1) idt t2

/-- Witness for `dedupAdmit_twice_spec`: with a first submission at 100 ms, a
second at 200 ms is suppressed without touching the record, while a second at
300100 ms is admitted and re-recorded. -/
theorem dedupAdmit_twice_spec_witness :
    dedupAdmit ((dedupAdmit [] "h" 100 300000).2) "h" 200 300000 =
      (false, (dedupAdmit [] "h" 100 300000).2) ∧
    (dedupAdmit ((dedupAdmit [] "h" 100 300000).2) "h" 300100 300000).1 = true ∧
    mapGet (dedupAdmit ((dedupAdmit [] "h" 100 300000).2) "h" 300100 300000).2 "h" =
      some 300100 := by
  have a := dedupAdmit_twice_spec [] "h" 100 200 300000 rfl (by decide) (by decide)
  have b := dedupAdmit_twice_spec [] "h" 100 300100 300000 rfl (by decide) (by decide)
  exact ⟨a.2.2.1 (by decide), (b.2.2.2 (by decide)).1, (b.2.2.2 (by decide)).2⟩

/-! ## Claim C9: sendCustomMessage bypasses the throttles -/

/-- C9: `sendCustomMessage` never consults the rate limiter or the
deduplicator — for every formatter behaviour its resolved outcome carries the
input state unchanged — yet (with at least one retry attempt configured, as
the constructor's defaulting guarantees) it delivers through the retry driver
and transport, invoking the transport at least once; consequently every one
of `n` consecutive `sendCustomMessage` calls reaches the transport, whatever
`rateLimitMax` the configuration holds. -/
theorem sendCustomMessage_bypass_spec (cfg : Config) (st : LoggerState)
    (transport : Nat → TOutcome) (hret : 1 ≤ cfg.retryAttempts) :
    (∀ fmt, ∃ res calls,
      sendCustomMessageJS cfg st fmt transport = .ok ⟨res, st, calls⟩) ∧
    sendCustomMessageJS cfg st .ok transport =
      .ok ⟨(sendMessageWithRetry transport cfg.retryAttempts).result, st,
           (sendMessageWithRetry transport cfg.retryAttempts).calls⟩ ∧
    1 ≤ (sendMessageWithRetry transport cfg.retryAttempts).calls ∧
    (∀ n, (runCustomMessages cfg st transport n).length = n ∧
      ∀ o ∈ runCustomMessages cfg st transport n, o.st = st ∧ 1 ≤ o.calls) := by
  have hcalls := sendMessageWithRetry_calls_pos transport cfg.retryAttempts hret
  have hrun : ∀ n, runCustomMessages cfg st transport (n + 1) =
      (⟨(sendMessageWithRetry transport cfg.retryAttempts).result, st,
        (sendMessageWithRetry transport cfg.retryAttempts).calls⟩ : SEOut) ::
      runCustomMessages cfg st transport n := fun n => rfl
  refine ⟨?_, rfl, hcalls, ?_⟩
  · intro fmt
    cases fmt with
    | ok => exact ⟨_, _, rfl⟩
    | throws e => exact ⟨none, 0, rfl⟩
  · intro n
    induction n with
    | zero =>
      refine ⟨rfl, ?_⟩
      intro o ho
      cases ho
    | succ n ih =>
      refine ⟨?_, ?_⟩
      · rw [hrun n, List.length_cons, ih.1]
      · intro o ho
        rw [hrun n] at ho
        rcases List.mem_cons.1 ho with h | h
        · rw [h]
          exact ⟨rfl, hcalls⟩
        · exact ih.2 o h

/-- Witness for `sendCustomMessage_bypass_spec`: 20 consecutive custom
messages under `rateLimitMax = 1` all reach the transport. -/
theorem sendCustomMessage_bypass_spec_witness :
    (runCustomMessages cfgTight ⟨[], []⟩ tAllOk 20).length = 20 ∧
    ∀ o ∈ runCustomMessages cfgTight ⟨[], []⟩ tAllOk 20,
      o.st = (⟨[], []⟩ : LoggerState) ∧ 1 ≤ o.calls := by
  exact (sendCustomMessage_bypass_spec cfgTight ⟨[], []⟩ tAllOk (by decide)).2.2.2 20

/-! ## Claim C10: throttling state is written before delivery and persists -/

/-- C10 (counterexample): the claim says an identical event arriving within
`deduplicateWindow` after a failed delivery is still suppressed. With the
first `sendError` call at clock value `0` (recorded, delivery fails), an
identical call at clock value `1` is not suppressed: it proceeds all the way
to the transport (one invocation) because the dedup record holding timestamp
`0` is treated as absent by the falsiness check in `isDuplicate`. -/
theorem sendError_dedup_after_failure_cex :
    sendErrorJS cfgDedup ⟨[], []⟩ .absent ⟨"E", "m"⟩ ⟨none, none⟩ .ok tAllFail 0 =
      .ok ⟨none, ⟨[(0, 1)], [("E:m:", 0)]⟩, 1⟩ ∧
    sendErrorJS cfgDedup ⟨[(0, 1)], [("E:m:", 0)]⟩ .absent ⟨"E", "m"⟩ ⟨none, none⟩
        .ok tAllFail 1 =
      .ok ⟨none, ⟨[(0, 1), (1, 1)], [("E:m:", 1)]⟩, 1⟩ := ⟨rfl, rfl⟩

/-- C10 (amended): for every `sendError` call with deduplication enabled that
passes the filter, the rate limit and the duplicate check, the rate-limit
slot is consumed and the dedup record for the event's identity is written
before any delivery attempt starts — the post-state is the same expression
for every transport behaviour, including one whose every attempt fails — and,
provided the recording clock value is nonzero (a record holding `0` is
treated as absent by the falsiness check), an identical event arriving
strictly within `deduplicateWindow` afterwards resolves to `null` with zero
transport invocations. -/
theorem sendError_state_persists_spec (cfg : Config) (st : LoggerState)
    (filter : FilterBeh) (error : ErrInfo) (context : Ctx) (now now2 : Nat)
    (hf : filterStep filter = Except.ok true)
    (hd : cfg.deduplicate = true)
    (hbelow : sumCounts (evictOld now cfg.rateLimitWindow st.errorCounts) <
      cfg.rateLimitMax)
    (hnodup : isDuplicate st.errorHashes (getErrorHash error context) now
      cfg.deduplicateWindow = false)
    (hpos : 0 < now) (hle : now ≤ now2)
    (hwin : now2 - now < cfg.deduplicateWindow) :
    ∀ (transport transport2 : Nat → TOutcome) (fmt2 : FmtBeh),
      sendErrorJS cfg st filter error context .ok transport now =
        .ok ⟨(sendMessageWithRetry transport cfg.retryAttempts).result,
             ⟨(checkRateLimit now cfg.rateLimitWindow cfg.rateLimitMax
                 st.errorCounts).2,
              recordError st.errorHashes (getErrorHash error context) now⟩,
             (sendMessageWithRetry transport cfg.retryAttempts).calls⟩ ∧
      (∃ s2 : LoggerState,
        sendErrorJS cfg
          ⟨(checkRateLimit now cfg.rateLimitWindow cfg.rateLimitMax
              st.errorCounts).2,
           recordError st.errorHashes (getErrorHash error context) now⟩
          filter error context fmt2 transport2 now2 = .ok ⟨none, s2, 0⟩) := by
  intro transport transport2 fmt2
  have hrl1 : (checkRateLimit now cfg.rateLimitWindow cfg.rateLimitMax
      st.errorCounts).1 = true :=
    (checkRateLimit_fst_true_iff now _ _ st.errorCounts).2 hbelow
  constructor
  · simp only [sendErrorJS, sendErrorBody, hf, Bool.not_true, Bool.false_eq_true,
      if_false, hrl1, hd, if_true, hnodup, deliverStep]
  · have hget : mapGet (recordError st.errorHashes (getErrorHash error context) now)
        (getErrorHash error context) = some now :=
      mapGet_mapSet_self st.errorHashes (getErrorHash error context) now
    have hdup2 : isDuplicate
        (recordError st.errorHashes (getErrorHash error context) now)
        (getErrorHash error context) now2 cfg.deduplicateWindow = true := by
      unfold isDuplicate
      rw [hget]
      show (if now = 0 then false
        else decide (now2 - now < cfg.deduplicateWindow)) = true
      rw [if_neg (by omega)]
      simpa using hwin
    refine ⟨⟨(checkRateLimit now2 cfg.rateLimitWindow cfg.rateLimitMax
        (checkRateLimit now cfg.rateLimitWindow cfg.rateLimitMax
          st.errorCounts).2).2,
      recordError st.errorHashes (getErrorHash error context) now⟩, ?_⟩
    by_cases hb : (checkRateLimit now2 cfg.rateLimitWindow cfg.rateLimitMax
        (checkRateLimit now cfg.rateLimitWindow cfg.rateLimitMax
          st.errorCounts).2).1 = true
    · simp only [sendErrorJS, sendErrorBody, hf, Bool.not_true, Bool.false_eq_true,
        if_false, hb, hd, if_true, hdup2]
    · rw [Bool.not_eq_true] at hb
      simp only [sendErrorJS, sendErrorBody, hf, Bool.not_true, Bool.not_false,
        Bool.false_eq_true, if_false, hb, if_true]

/-- Witness for `sendError_state_persists_spec`: a first call at 100 ms whose
delivery fails still consumes the rate slot and writes the dedup record; an
identical call at 200 ms is suppressed with zero transport invocations. -/
theorem sendError_state_persists_spec_witness :
    sendErrorJS cfgDedup ⟨[], []⟩ .absent ⟨"E", "m"⟩ ⟨none, none⟩ .ok tAllFail 100 =
      .ok ⟨none, ⟨[(100, 1)], [("E:m:", 100)]⟩, 1⟩ ∧
    (∃ s2 : LoggerState,
      sendErrorJS cfgDedup ⟨[(100, 1)], [("E:m:", 100)]⟩ .absent ⟨"E", "m"⟩
        ⟨none, none⟩ .ok tAllFail 200 = .ok ⟨none, s2, 0⟩) := by
  have h := sendError_state_persists_spec cfgDedup ⟨[], []⟩ .absent ⟨"E", "m"⟩
    ⟨none, none⟩ 100 200 rfl rfl (by decide) (by decide) (by decide) (by decide)
    (by decide) tAllFail tAllFail .ok
  exact ⟨h.1, h.2⟩

/-! ## Claim C1: the rate limiter's admission rule -/

/-- C1 (counterexample): the claim says an entry is counted exactly when its
age is strictly less than `W`. With `W = 10`, `C = 1` and a single recorded
entry of age exactly `10 = W` at `now = 10`, that rule would count nothing
(`0 < C`) and admit the call; the code keeps the boundary entry (eviction
deletes only timestamps strictly below `now - W`), counts it, and rejects
the call. -/
theorem checkRateLimit_window_boundary_cex :
    (checkRateLimit 10 10 1 [(0, 1)]).1 = false ∧
    evictOld 10 10 [(0, 1)] = [(0, 1)] ∧
    ¬ ((10 : Nat) - 0 < 10) := by decide

/-- C1 (amended): for every rate-limiter consultation at time `now` with
window `W` and capacity `C`: an entry survives eviction exactly when it was
recorded and its age is at most `W` (entries whose age strictly exceeds `W`
are evicted — so an entry is counted exactly when its age is at most `W`,
boundary included); the call is admitted exactly when the surviving count is
below `C`; a rejected call leaves only the eviction in place with no new
record, while an admitted call records the current timestamp, raising the
count by one; consequently, starting from an empty limiter, every sequence of
at most `C` calls within one window is fully admitted, and a further call
within the same window after `C` admissions is rejected. -/
theorem checkRateLimit_admission_spec :
    (∀ (now W : Nat) (m : RLState) (e : Nat × Nat),
      e ∈ evictOld now W m ↔ e ∈ m ∧ now - e.1 ≤ W) ∧
    (∀ (now W C : Nat) (m : RLState),
      ((checkRateLimit now W C m).1 = true ↔ sumCounts (evictOld now W m) < C) ∧
      (C ≤ sumCounts (evictOld now W m) →
        checkRateLimit now W C m = (false, evictOld now W m)) ∧
      (sumCounts (evictOld now W m) < C →
        checkRateLimit now W C m =
          (true, mapSet (evictOld now W m) now
            ((mapGet (evictOld now W m) now).getD 0 + 1)) ∧
        sumCounts (checkRateLimit now W C m).2 =
          sumCounts (evictOld now W m) + 1)) ∧
    (∀ (t0 W C : Nat) (ts : List Nat),
      (∀ t ∈ ts, t0 ≤ t ∧ t ≤ t0 + W) → ts.length ≤ C →
      (runCalls W C ts []).1 = List.replicate ts.length true) ∧
    (∀ (t0 W C : Nat) (ts : List Nat) (tnext : Nat),
      (∀ t ∈ ts, t0 ≤ t ∧ t ≤ t0 + W) → ts.length = C →
      t0 ≤ tnext → tnext ≤ t0 + W →
      (checkRateLimit tnext W C (runCalls W C ts []).2).1 = false) := by
  refine ⟨evictOld_mem_iff, ?_, ?_, ?_⟩
  · intro now W C m
    refine ⟨checkRateLimit_fst_true_iff now W C m,
      checkRateLimit_reject now W C m, ?_⟩
    intro h
    have ha := checkRateLimit_accept now W C m h
    refine ⟨ha, ?_⟩
    rw [ha]
    exact sumCounts_mapSet_incr (evictOld now W m) now
  · intro t0 W C ts hts hlen
    have h := runCalls_inv W C t0 ts [] hts (by intro e he; cases he)
      (by simpa [sumCounts] using hlen)
    exact h.1
  · intro t0 W C ts tnext hts hlen h0 h1
    have h := runCalls_inv W C t0 ts [] hts (by intro e he; cases he)
      (by simp only [sumCounts, List.map_nil, List.sum_nil, Nat.zero_add]; omega)
    have hev : evictOld tnext W (runCalls W C ts []).2 = (runCalls W C ts []).2 := by
      apply evictOld_eq_self
      intro e he
      have := h.2.1 e he
      omega
    have hsum : C ≤ sumCounts (evictOld tnext W (runCalls W C ts []).2) := by
      rw [hev, h.2.2]
      simp only [sumCounts, List.map_nil, List.sum_nil, Nat.zero_add]
      omega
    rw [checkRateLimit_reject tnext W C (runCalls W C ts []).2 hsum]

/-- Witness for `checkRateLimit_admission_spec`: with `W = 10`, `C = 2`, two
calls at 0 ms and 5 ms are both admitted from the empty state, a third call
at 7 ms is rejected, and a consultation finding a surviving count of 5 with
capacity 2 is rejected without recording. -/
theorem checkRateLimit_admission_spec_witness :
    (runCalls 10 2 [0, 5] []).1 = List.replicate 2 true ∧
    (checkRateLimit 7 10 2 (runCalls 10 2 [0, 5] []).2).1 = false ∧
    checkRateLimit 5 10 2 [(0, 5)] = (false, evictOld 5 10 [(0, 5)]) := by
  have a := checkRateLimit_admission_spec.2.2.1 0 10 2 [0, 5] (by decide) (by decide)
  have b := checkRateLimit_admission_spec.2.2.2 0 10 2 [0, 5] 7 (by decide)
    (by decide) (by decide) (by decide)
  have c := (checkRateLimit_admission_spec.2.1 5 10 2 [(0, 5)]).2.1 (by decide)
  exact ⟨a, b, c⟩

end TelegramLogger
